import Mathlib

/-!
# Verification of the LXD clustered network control plane (`lxd/networks.go`)

This development shallowly embeds the handlers of `lxd/networks.go`:
`networksPost`, `networksPostCluster`, `doNetworksCreate`, `networkGet` (ETag part),
`networkPut`/`networkPatch` + `doNetworkUpdate`, `networkDelete`, `networkLeasesGet`
and `networkStartup`.

External collaborators (database transactions, network drivers, the cluster
notifier, instance listing, the filesystem) are modelled as oracles carried in
environment structures: each fallible call's outcome is a field of the
environment, and each side-effecting call is recorded in an effect trace
(`Eff`).  Go maps are modelled as association lists with first-occurrence
lookup; crucially, the map *aliasing* of `req.Config` in `networksPostCluster`
is modelled faithfully by threading a single accumulating config value through
the local merge and the peer fan-out.
-/

namespace LxdNet

/-! ### Go map model: association lists with first-occurrence lookup -/

abbrev Config := List (String × String)

def cfgGet (c : Config) (k : String) : Option String :=
  (c.find? (fun p => p.1 == k)).map (fun p => p.2)

/-- Go map indexing `m[k]` yields the zero value `""` for a missing key. -/
def cfgGetD (c : Config) (k : String) : String :=
  (cfgGet c k).getD ""

/-- Go map assignment `m[k] = v`: replace the (first) binding of `k`, or append. -/
def cfgSet : Config → String → String → Config
  | [], k, v => [(k, v)]
  | p :: c, k, v => if p.1 = k then (k, v) :: c else p :: cfgSet c k v

/-- `for k, v := range src { dst[k] = v }`. -/
def cfgMerge (dst src : Config) : Config :=
  src.foldl (fun acc p => cfgSet acc p.1 p.2) dst

/-- Go `delete(m, k)`. -/
def cfgDel (c : Config) (k : String) : Config :=
  c.filter (fun p => !(p.1 == k))

/-- `for _, key := range ks { delete(c, key) }` — the code's stripping loop. -/
def stripKeys (ks : List String) (c : Config) : Config :=
  ks.foldl cfgDel c

/-- Written from the spec's words: "node-specific keys stripped" = keep exactly
the entries whose key is not node-specific. Compared with `stripKeys`. -/
def stripSpec (ks : List String) (c : Config) : Config :=
  c.filter (fun p => !(ks.contains p.1))

/-! ### Database, driver and effect model -/

inductive DbErr
  | noSuchObject
  | alreadyDefined
  | other
  deriving DecidableEq

/-- A record returned by `GetNetworkInAnyState` (fields used by the handlers). -/
structure DbNetwork where
  name : String
  managed : Bool
  type : String
  description : String
  status : String
  config : Config
  deriving DecidableEq

/-- Outcomes of the driver calls made through `network.LoadByName`. -/
structure Driver where
  loadOk : Bool
  validateOk : Bool
  createOk : Bool
  startOk : Bool
  deriving DecidableEq

/-- Observable side effects of the handlers, in execution order. -/
inductive Eff
  | dbCreateNetwork
  | dbDeleteNetwork
  | dbCreatePending
  | dbCreateNetworkConfig
  | dbMarkCreated
  | dbMarkErrored
  | drvValidate
  | drvCreate (cn : Bool)
  | drvStart
  | drvDelete (cn : Bool)
  | drvUpdate (cfg : Config) (target : String)
  | notifyPeer (server : String) (cfg : Config)
  | notifyDelete
  | removeArtifacts
  | startupValidate (name : String)
  | startupStart (name : String)
  deriving DecidableEq

/-- Database writes: creation/deletion of records or rows and status changes. -/
def Eff.isDbWrite : Eff → Bool
  | .dbCreateNetwork => true
  | .dbDeleteNetwork => true
  | .dbCreatePending => true
  | .dbCreateNetworkConfig => true
  | .dbMarkCreated => true
  | .dbMarkErrored => true
  | _ => false

/-- Realization steps of the cluster-promotion path: local driver create/start
and peer notifications. -/
def Eff.isRealize : Eff → Bool
  | .drvCreate _ => true
  | .drvStart => true
  | .notifyPeer _ _ => true
  | _ => false

/-- `doNetworksCreate`: load driver, validate full config, `Create(cn)`,
`Start()`; on start failure `Delete(cn)`.  Touches no database state. -/
def doNetworksCreate (drv : Driver) (cn : Bool) : Except Unit Unit × List Eff :=
  if drv.loadOk = false then (.error (), [])
  else if drv.validateOk = false then (.error (), [.drvValidate])
  else if drv.createOk = false then (.error (), [.drvValidate, .drvCreate cn])
  else if drv.startOk = false then
    (.error (), [.drvValidate, .drvCreate cn, .drvStart, .drvDelete cn])
  else (.ok (), [.drvValidate, .drvCreate cn, .drvStart])

/-! ### `networksPostCluster` (cluster promotion) -/

structure NetworksPostReq where
  name : String
  type : String
  description : String
  config : Config
  deriving DecidableEq

structure Peer where
  serverName : String
  getServerOk : Bool
  createOk : Bool

/-- The `NotifyAll` fan-out of `networksPostCluster`, linearized in peer order.
The `cfg` argument is the *shared* `req.Config` map: `nodeReq := req` in Go
copies the struct but aliases the map, so each peer's merge mutates the one
map that is then serialized into that peer's `CreateNetwork` call. -/
def fanOut (configs : String → Config) : Config → List Peer → Except Unit Unit × Config × List Eff
  | cfg, [] => (.ok (), cfg, [])
  | cfg, p :: ps =>
    if p.getServerOk = false then (.error (), cfg, [])
    else
      let cfg2 := cfgMerge cfg (configs p.serverName)
      if p.createOk = false then (.error (), cfg2, [.notifyPeer p.serverName cfg2])
      else
        let r := fanOut configs cfg2 ps
        (r.1, r.2.1, .notifyPeer p.serverName cfg2 :: r.2.2)

structure PCEnv where
  /-- `GetNetworkInAnyState req.Name`. -/
  lookup : Except DbErr DbNetwork
  /-- `network.FillConfig`: the request config with driver defaults filled in. -/
  fillResult : Except Unit Config
  /-- The definition transaction: `GetNetworkID`, `NetworkNodeConfigs`,
  `GetLocalNodeName`, then `CreateNetworkConfig(id, 0, req.Config)`;
  on success it yields the per-node configs and the local node name. -/
  txResult : Except DbErr ((String → Config) × String)
  notifierOk : Bool
  markCreatedOk : Bool
  drv : Driver
  peers : List Peer

/-- The part of `networksPostCluster` that runs after `NetworkCreated`:
local realization then peer fan-out, with the `NetworkErrored` compensation
(registered on the reverter) appended on any failure. -/
def pcRealize (drv : Driver) (configs : String → Config) (cfg1 : Config) (peers : List Peer) :
    Except Unit Unit × List Eff :=
  match doNetworksCreate drv false with
  | (.error _, dtr) => (.error (), dtr ++ [.dbMarkErrored])
  | (.ok _, dtr) =>
    match fanOut configs cfg1 peers with
    | (.error _, _, ptr) => (.error (), dtr ++ ptr ++ [.dbMarkErrored])
    | (.ok _, _, ptr) => (.ok (), dtr ++ ptr)

/-- The type compatibility check of `networksPostCluster`: a missing record is
fine, any other lookup error aborts, and an existing record must have the
requested type. -/
def pcTypeOk (req : NetworksPostReq) (lookup : Except DbErr DbNetwork) : Bool :=
  match lookup with
  | .error .noSuchObject => true
  | .error _ => false
  | .ok netInfo => req.type == netInfo.type

/-- The tail of `networksPostCluster` after the definition transaction
succeeded (the global config row is inserted): create the notifier, register
the `NetworkErrored` compensation, mark created, realize locally, fan out. -/
def pcAfterTx (nok mok : Bool) (drv : Driver) (configs : String → Config) (cfg1 : Config)
    (peers : List Peer) : Except Unit Unit × List Eff :=
  if nok = false then (.error (), [.dbCreateNetworkConfig])
  else if mok = false then (.error (), [.dbCreateNetworkConfig, .dbMarkErrored])
  else
    let r := pcRealize drv configs cfg1 peers
    (r.1, .dbCreateNetworkConfig :: .dbMarkCreated :: r.2)

def networksPostCluster (nsKeys : List String) (req : NetworksPostReq) (env : PCEnv) :
    Except Unit Unit × List Eff :=
  if req.config.any (fun p => nsKeys.contains p.1) then (.error (), [])
  else if pcTypeOk req env.lookup = false then (.error (), [])
  else
    match env.fillResult with
    | .error _ => (.error (), [])
    | .ok cfg =>
      match env.txResult with
      | .error _ => (.error (), [])
      | .ok (configs, nodeName) =>
        pcAfterTx env.notifierOk env.markCreatedOk env.drv configs
          (cfgMerge cfg (configs nodeName)) env.peers

/-! ### `networksPost` -/

inductive Resp
  | syncLocation (url : String)
  | emptySync
  | badRequest
  | smartError
  | internalError
  | conflict
  | notFound
  | preconditionFailed
  | forwarded
  deriving DecidableEq

structure PostEnv where
  decodeOk : Bool
  req : NetworksPostReq
  validateNameOk : Bool
  isCN : Bool
  target : String
  /-- `CreatePendingNetwork(target, …)`. -/
  pendingResult : Except DbErr Unit
  /-- `cluster.Count`. -/
  countResult : Except Unit Nat
  pcEnv : PCEnv
  fillResult : Except Unit Config
  /-- `networkGetInterfaces`: union of host interface names and managed networks. -/
  interfacesResult : Except Unit (List String)
  createNetworkOk : Bool
  drv : Driver

def effReqType (t : String) : String := if t = "" then "bridge" else t

def postChecksPass (env : PostEnv) : Bool :=
  env.decodeOk && !(env.req.name == "") && env.validateNameOk &&
    (["bridge", "macvlan", "sriov"].contains (effReqType env.req.type))

def networksPost (nsKeys : List String) (env : PostEnv) : Resp × List Eff :=
  if env.decodeOk = false then (.badRequest, [])
  else if env.req.name = "" then (.badRequest, [])
  else
    let reqType := effReqType env.req.type
    if env.validateNameOk = false then (.badRequest, [])
    else if (["bridge", "macvlan", "sriov"].contains reqType) = false then (.badRequest, [])
    else if env.isCN then
      match doNetworksCreate env.drv true with
      | (.ok _, tr) => (.syncLocation env.req.name, tr)
      | (.error _, tr) => (.smartError, tr)
    else if env.target ≠ "" then
      if env.req.config.any (fun p => !(nsKeys.contains p.1)) then (.badRequest, [])
      else
        match env.pendingResult with
        | .ok _ => (.syncLocation env.req.name, [.dbCreatePending])
        | .error .alreadyDefined => (.badRequest, [])
        | .error _ => (.smartError, [])
    else
      match env.countResult with
      | .error _ => (.smartError, [])
      | .ok count =>
        if count > 1 then
          match networksPostCluster nsKeys { env.req with type := reqType } env.pcEnv with
          | (.ok _, tr) => (.syncLocation env.req.name, tr)
          | (.error _, tr) => (.smartError, tr)
        else
          match env.fillResult with
          | .error _ => (.smartError, [])
          | .ok _cfg =>
            match env.interfacesResult with
            | .error _ => (.internalError, [])
            | .ok ifs =>
              if ifs.contains env.req.name then (.badRequest, [])
              else if env.createNetworkOk = false then (.smartError, [])
              else
                match doNetworksCreate env.drv false with
                | (.ok _, tr) => (.syncLocation env.req.name, .dbCreateNetwork :: tr)
                | (.error _, tr) => (.smartError, .dbCreateNetwork :: (tr ++ [.dbDeleteNetwork]))

/-! ### `networkGet` / `networkPut` / `networkPatch` and `doNetworkUpdate` -/

/-- The ETag tuple `(name, managed, type, description, config)`. -/
abbrev EtagT := String × Bool × String × String × Config

def etagMismatch (client : Option EtagT) (etag : EtagT) : Bool :=
  match client with
  | none => false
  | some e => if e = etag then false else true

structure ApiNetwork where
  name : String
  managed : Bool
  type : String
  description : String
  config : Config
  deriving DecidableEq

/-- The tail of `networkGet`: strip node-specific keys when no target is given
on a clustered daemon, then build the ETag tuple over the response record. -/
def networkGetResult (nsKeys : List String) (n : ApiNetwork) (target : String) (clustered : Bool) :
    ApiNetwork × EtagT :=
  let cfg := if target = "" ∧ clustered then stripKeys nsKeys n.config else n.config
  let n2 : ApiNetwork := { n with config := cfg }
  (n2, (n2.name, n2.managed, n2.type, n2.description, n2.config))

/-- Written from the spec's words: the ETag is computed over
`(name, managed, type, description, config)` of the stored record, with
node-specific keys stripped iff `target` is empty and the daemon is clustered. -/
def etagSpec (nsKeys : List String) (rec : DbNetwork) (target : String) (clustered : Bool) : EtagT :=
  (rec.name, rec.managed, rec.type, rec.description,
    if target = "" ∧ clustered then stripSpec nsKeys rec.config else rec.config)

structure PutEnv where
  /-- `forwardedResponseIfTargetIsRemote` produced a response. -/
  forwarded : Bool
  /-- `GetNetworkInAnyState name`. -/
  lookupResult : Except Unit DbNetwork
  target : String
  /-- `cluster.Enabled`. -/
  clusteredResult : Except Unit Bool
  /-- The client-supplied ETag (none = no `If-Match` header, which passes). -/
  clientEtag : Option EtagT
  decodeOk : Bool
  /-- The decoded request config. -/
  reqConfig : Config
  /-- `"PUT"` or `"PATCH"`. -/
  method : String
  /-- `network.LoadByName` in `doNetworkUpdate`. -/
  loadOk : Bool
  /-- `n.Config()`: the driver's current (locally merged) config. -/
  driverConfig : Config
  /-- `network.Validate` on the merged config. -/
  validateOk : Bool
  /-- `n.Update`. -/
  updateOk : Bool

/-- The no-target clustered PUT merge of `doNetworkUpdate`: carry every
node-specific key of the current driver config into the request. -/
def mergeNs (nsKeys : List String) (dc req : Config) : Config :=
  dc.foldl (fun acc p => if nsKeys.contains p.1 then cfgSet acc p.1 p.2 else acc) req

/-- The PATCH merge of `doNetworkUpdate`: copy every current key absent from
the request. -/
def mergePatch (dc req : Config) : Config :=
  dc.foldl (fun acc p => match cfgGet acc p.1 with
    | some _ => acc
    | none => cfgSet acc p.1 p.2) req

/-- `doNetworkUpdate`: merge the request with the current config (carrying
node-specific keys forward for a clustered no-target PUT, and all absent keys
forward for a PATCH), validate, then hand the merged config to the driver. -/
def doNetworkUpdate (nsKeys : List String) (env : PutEnv) (clustered : Bool) : Resp × List Eff :=
  if env.loadOk = false then (.notFound, [])
  else
    let req := env.reqConfig
    let merged :=
      if env.target = "" ∧ env.method ≠ "PATCH" ∧ clustered then
        mergeNs nsKeys env.driverConfig req
      else if env.method = "PATCH" then
        mergePatch env.driverConfig req
      else req
    if env.validateOk = false then (.badRequest, [])
    else if env.updateOk = false then (.smartError, [.drvUpdate merged env.target])
    else (.emptySync, [.drvUpdate merged env.target])

/-- `networkPut` (also `networkPatch`, which delegates to it). -/
def networkPut (nsKeys : List String) (env : PutEnv) : Resp × List Eff :=
  if env.forwarded then (.forwarded, [])
  else
    match env.lookupResult with
    | .error _ => (.smartError, [])
    | .ok dbInfo =>
      match env.clusteredResult with
      | .error _ => (.smartError, [])
      | .ok clustered =>
        let dbConfig :=
          if env.target = "" ∧ clustered then stripKeys nsKeys dbInfo.config else dbInfo.config
        let etag : EtagT := (dbInfo.name, dbInfo.managed, dbInfo.type, dbInfo.description, dbConfig)
        if etagMismatch env.clientEtag etag then (.preconditionFailed, [])
        else if env.decodeOk = false then (.badRequest, [])
        else if clustered ∧ env.target = "" ∧
            env.reqConfig.any (fun p => nsKeys.contains p.1) then (.badRequest, [])
        else if clustered ∧ env.target ≠ "" ∧
            env.reqConfig.any (fun p => !(nsKeys.contains p.1) && !(cfgGetD dbConfig p.1 == p.2)) then
          (.badRequest, [])
        else doNetworkUpdate nsKeys env clustered

/-! ### `networkDelete` -/

structure DeleteEnv where
  lookupResult : Except Unit DbNetwork
  /-- `DeleteNetwork` for the pending fast path. -/
  dbDeleteOk : Bool
  loadOk : Bool
  isCN : Bool
  /-- `n.IsUsed()`. -/
  isUsedResult : Except Unit Bool
  notifierOk : Bool
  /-- Result of the `NotifyAll` DELETE fan-out. -/
  peerDeleteOk : Bool
  drvDeleteOk : Bool
  artifactExists : Bool

/-- Local teardown tail of `networkDelete`: `n.Delete(cn)` then artifact cleanup. -/
def deleteFinish (env : DeleteEnv) (cn : Bool) : Resp × List Eff :=
  if env.drvDeleteOk = false then (.smartError, [.drvDelete cn])
  else if env.artifactExists then (.emptySync, [.drvDelete cn, .removeArtifacts])
  else (.emptySync, [.drvDelete cn])

def networkDelete (env : DeleteEnv) : Resp × List Eff :=
  match env.lookupResult with
  | .error _ => (.smartError, [])
  | .ok dbNetwork =>
    if dbNetwork.status = "Pending" then
      if env.dbDeleteOk then (.emptySync, [.dbDeleteNetwork]) else (.smartError, [.dbDeleteNetwork])
    else if env.loadOk = false then (.notFound, [])
    else if env.isCN then deleteFinish env true
    else
      match env.isUsedResult with
      | .error _ => (.smartError, [])
      | .ok true => (.badRequest, [])
      | .ok false =>
        if env.notifierOk = false then (.smartError, [])
        else if env.peerDeleteOk = false then (.smartError, [.notifyDelete])
        else
          let r := deleteFinish env false
          (r.1, .notifyDelete :: r.2)

/-! ### `networkLeasesGet` -/

structure Lease where
  hostname : String
  address : String
  hwaddr : String
  type : String
  location : String
  deriving DecidableEq

/-- An expanded instance device (the fields `networkLeasesGet` reads). -/
structure InstDevice where
  devName : String
  type : String
  /-- `nictype.NICType(dev)` returned `"bridged"` without error. -/
  nicTypeBridged : Bool
  network : String
  parent : String
  hwaddr : String
  ipv4 : String
  ipv6 : String

structure Inst where
  name : String
  location : String
  /-- `inst.LocalConfig()["volatile.<dev>.hwaddr"]` keyed by device name. -/
  volatile : String → String
  devices : List InstDevice

def devParent (dev : InstDevice) : String :=
  if dev.network ≠ "" then dev.network else dev.parent

def devHwaddr (inst : Inst) (dev : InstDevice) : String :=
  if dev.hwaddr = "" then inst.volatile dev.devName else dev.hwaddr

/-- The static-lease pass: emit static leases for matching bridged NICs and
collect the project MAC set. -/
def staticLeases (name : String) (insts : List Inst) : List Lease × List String :=
  insts.foldl (fun acc inst =>
    inst.devices.foldl (fun acc dev =>
      if dev.type ≠ "nic" then acc
      else if dev.nicTypeBridged = false then acc
      else if devParent dev ≠ name then acc
      else
        let hw := devHwaddr inst dev
        let macs := if hw ≠ "" then acc.2 ++ [hw] else acc.2
        let l4 : List Lease :=
          if dev.ipv4 ≠ "" then [⟨inst.name, dev.ipv4, hw, "static", inst.location⟩] else []
        let l6 : List Lease :=
          if dev.ipv6 ≠ "" then [⟨inst.name, dev.ipv6, hw, "static", inst.location⟩] else []
        (acc.1 ++ l4 ++ l6, macs)) acc) ([], [])

/-- Split a character list at every occurrence of `c` (Go `strings.Split`). -/
def splitChar (c : Char) : List Char → List (List Char)
  | [] => [[]]
  | a :: rest =>
    let r := splitChar c rest
    if a = c then [] :: r
    else
      match r with
      | [] => [[a]]
      | h :: t => (a :: h) :: t

/-- Go `strings.Fields`: split around runs of whitespace. -/
def fieldsGo : List Char → List Char → List (List Char)
  | cur, [] => if cur.isEmpty then [] else [cur.reverse]
  | cur, a :: rest =>
    if a.isWhitespace then
      if cur.isEmpty then fieldsGo [] rest
      else cur.reverse :: fieldsGo [] rest
    else fieldsGo (a :: cur) rest

def goFields (s : String) : List String :=
  (fieldsGo [] s.data).map String.mk

def goSplitLines (s : String) : List String :=
  (splitChar '\n' s.data).map String.mk

/-- Go `len` on a string, modelled over the character list (the lease-file
fields of interest are ASCII, where byte length and character count agree). -/
def goLen (s : String) : Nat := s.data.length

/-- Modelled from the spec: the driver's MAC canonicalizer
(`network.GetMACSlice`, defined outside this file's source): it splits the raw
MAC field into components that the caller joins with `":"`. -/
def getMACSlice (hwaddr : String) : List String :=
  (splitChar ':' hwaddr.data).map String.mk

def joinColon : List String → String
  | [] => ""
  | [s] => s
  | s :: rest => s ++ ":" ++ joinColon rest

/-- The MAC computed for one lease line: the canonicalized raw MAC, or, when
that is shorter than 17 characters and the clientid field is non-empty, the
last 17 characters of the clientid.  `none` models the Go runtime panic of
`fields[4][len(fields[4])-17:]` when the slice lower bound is negative. -/
def leaseLineMac (line : String) : Option String :=
  let f4 := (goFields line).getD 4 ""
  let macStr := joinColon (getMACSlice ((goFields line).getD 1 ""))
  if goLen macStr < 17 ∧ f4 ≠ "" then
    if goLen f4 < 17 then none
    else some (String.mk (f4.data.drop (f4.data.length - 17)))
  else some macStr

/-- Append the parsed dynamic lease unless its `(hwaddr, address)` pair is
already present. -/
def leaseAdd (serverName : String) (leases : List Lease) (line : String) (mac : String) :
    List Lease :=
  if leases.any (fun e => e.hwaddr == mac && e.address == (goFields line).getD 2 "") then leases
  else leases ++ [⟨(goFields line).getD 3 "", (goFields line).getD 2 "", mac, "dynamic", serverName⟩]

/-- One line of the dnsmasq lease file: lines with fewer than 5 fields are
skipped; otherwise compute the MAC (possibly panicking) and add the lease. -/
def processLeaseLine (serverName : String) (leases : List Lease) (line : String) :
    Option (List Lease) :=
  if (goFields line).length ≥ 5 then
    match leaseLineMac line with
    | none => none
    | some mac => some (leaseAdd serverName leases line mac)
  else some leases

def processLines (serverName : String) : List Lease → List String → Option (List Lease)
  | leases, [] => some leases
  | leases, l :: ls =>
    match processLeaseLine serverName leases l with
    | none => none
    | some ls2 => processLines serverName ls2 ls

inductive LeasesOutcome
  | panic
  | err
  | leasesNotFound
  | ok (leases : List Lease)
  deriving DecidableEq

structure LeasesEnv where
  /-- `doNetworkGet` succeeded. -/
  netOk : Bool
  managed : Bool
  netType : String
  isCN : Bool
  instancesOk : Bool
  instances : List Inst
  netName : String
  serverNameOk : Bool
  serverName : String
  /-- `shared.PathExists(leaseFile)`. -/
  fileExists : Bool
  readOk : Bool
  content : String
  notifierOk : Bool
  /-- Concatenated leases collected from alive peers. -/
  peerLeases : Except Unit (List Lease)

/-- The tail of `networkLeasesGet` after the static pass: read the local lease
file, parse the dynamic leases, collect peer leases and filter by project. -/
def leasesTail (env : LeasesEnv) (leases : List Lease) (projectMacs : List String) :
    LeasesOutcome :=
  if env.serverNameOk = false then .err
  else if env.fileExists = false then .ok leases
  else if env.readOk = false then .err
  else
    match processLines env.serverName leases (goSplitLines env.content) with
    | none => .panic
    | some leases2 =>
      if env.isCN = false then
        if env.notifierOk = false then .err
        else
          match env.peerLeases with
          | .error _ => .err
          | .ok pl =>
            .ok ((leases2 ++ pl).filter (fun l => projectMacs.contains l.hwaddr))
      else .ok leases2

def networkLeasesGet (env : LeasesEnv) : LeasesOutcome :=
  if env.netOk = false then .err
  else if env.managed = false ∨ env.netType ≠ "bridge" then .leasesNotFound
  else
    match (if env.isCN = false then
            (if env.instancesOk then Except.ok (staticLeases env.netName env.instances)
             else Except.error ())
           else Except.ok (([] : List Lease), ([] : List String))) with
    | .error _ => .err
    | .ok (leases, projectMacs) => leasesTail env leases projectMacs

/-! ### `networkStartup` -/

structure NetInfo where
  name : String
  loadOk : Bool
  validateOk : Bool
  startOk : Bool

def startupLoop : List NetInfo → Except Unit Unit × List Eff
  | [] => (.ok (), [])
  | n :: ns =>
    if n.loadOk = false then (.error (), [])
    else if n.validateOk = false then
      let r := startupLoop ns
      (r.1, .startupValidate n.name :: r.2)
    else
      let r := startupLoop ns
      (r.1, .startupValidate n.name :: .startupStart n.name :: r.2)

def networkStartup (listing : Except Unit (List NetInfo)) : Except Unit Unit × List Eff :=
  match listing with
  | .error _ => (.error (), [])
  | .ok ns => startupLoop ns

/-- Written from the spec's words: for each non-pending network, attempt
`validate` and, when it passes, `start`; failures are skipped. -/
def startupSpecTrace : List NetInfo → List Eff
  | [] => []
  | n :: ns =>
    .startupValidate n.name ::
      (if n.validateOk then [Eff.startupStart n.name] else []) ++ startupSpecTrace ns

/-! ### Concrete scenarios used as counterexamples and witnesses -/

def drvAllOk : Driver := { loadOk := true, validateOk := true, createOk := true, startOk := true }

/-- A cluster promotion of `br1` on a two-node cluster: only the local node
`node1` has a node-specific config row (`parent=eth1`); `node2` was defined
with an empty node config. -/
def reqC2 : NetworksPostReq := { name := "br1", type := "bridge", description := "", config := [] }

def configsC2 : String → Config := fun n => if n = "node1" then [("parent", "eth1")] else []

def dbC2 : DbNetwork :=
  { name := "br1"
    managed := true
    type := "bridge"
    description := ""
    status := "Pending"
    config := [] }

def envC2 : PCEnv :=
  { lookup := .ok dbC2
    fillResult := .ok []
    txResult := .ok (configsC2, "node1")
    notifierOk := true
    markCreatedOk := true
    drv := drvAllOk
    peers := [{ serverName := "node2", getServerOk := true, createOk := true }] }

/-- Same promotion, but `node2` fails its `CreateNetwork` call. -/
def envC2fail : PCEnv :=
  { envC2 with peers := [{ serverName := "node2", getServerOk := true, createOk := false }] }

/-- Single-node `POST /networks` for a name already used by an interface. -/
def envC9 : PostEnv :=
  { decodeOk := true
    req := { name := "br0", type := "bridge", description := "", config := [] }
    validateNameOk := true
    isCN := false
    target := ""
    pendingResult := .ok ()
    countResult := .ok 1
    pcEnv := envC2
    fillResult := .ok []
    interfacesResult := .ok ["br0", "eth0"]
    createNetworkOk := true
    drv := drvAllOk }

/-- Single-node `POST /networks` where the driver start fails after the insert. -/
def envC9fail : PostEnv :=
  { envC9 with
    req := { name := "br2", type := "bridge", description := "", config := [] }
    drv := { drvAllOk with startOk := false } }

/-- A cluster-notification `POST /networks` whose driver start fails. -/
def envC3 : PostEnv :=
  { envC9 with
    isCN := true
    drv := { drvAllOk with startOk := false } }

/-- An instance with a bridged NIC on `br0` whose hwaddr is nowhere
configured (neither on the device nor in volatile config). -/
def instC6 : Inst :=
  { name := "inst1"
    location := "node9"
    volatile := fun _ => ""
    devices := [{ devName := "eth0", type := "nic", nicTypeBridged := true, network := "", parent := "br0", hwaddr := "", ipv4 := "10.0.0.9", ipv6 := "" }] }

/-- Non-notification lease request for `br0` where the local dnsmasq lease file
does not exist: the handler returns early, skipping the project-MAC filter. -/
def envC6 : LeasesEnv :=
  { netOk := true
    managed := true
    netType := "bridge"
    isCN := false
    instancesOk := true
    instances := [instC6]
    netName := "br0"
    serverNameOk := true
    serverName := "node1"
    fileExists := false
    readOk := true
    content := ""
    notifierOk := true
    peerLeases := .ok [] }

/-- An instance whose NIC carries a full MAC, for the lease-filter witness. -/
def instW6 : Inst :=
  { name := "inst2"
    location := "node1"
    volatile := fun _ => ""
    devices := [{ devName := "eth0", type := "nic", nicTypeBridged := true, network := "", parent := "br0", hwaddr := "aa:bb:cc:dd:ee:ff", ipv4 := "10.0.0.9", ipv6 := "" }] }

def envW6 : LeasesEnv :=
  { envC6 with
    instances := [instW6]
    fileExists := true
    content := "1 aa:bb:cc:dd:ee:ff 10.0.0.7 hostx *" }

/-- Lease request whose lease file holds a line with a short raw MAC and a
clientid shorter than 17 characters: `fields[4][len(fields[4])-17:]` panics. -/
def envC10 : LeasesEnv :=
  { envC6 with
    isCN := true
    instances := []
    fileExists := true
    content := "1 ab:cd 10.0.0.5 host1 0a" }

def dbPendingC7 : DbNetwork :=
  { name := "br0"
    managed := true
    type := "bridge"
    description := ""
    status := "Pending"
    config := [] }

def dbCreatedC7 : DbNetwork := { dbPendingC7 with status := "Created" }

/-- DELETE of a pending network. -/
def envC7pending : DeleteEnv :=
  { lookupResult := .ok dbPendingC7
    dbDeleteOk := true
    loadOk := true
    isCN := false
    isUsedResult := .ok false
    notifierOk := true
    peerDeleteOk := true
    drvDeleteOk := true
    artifactExists := false }

/-- DELETE of a created, in-use network (no notification). -/
def envC7used : DeleteEnv :=
  { envC7pending with
    lookupResult := .ok dbCreatedC7
    isUsedResult := .ok true }

/-- DELETE of a created, unused network (no notification). -/
def envC7free : DeleteEnv :=
  { envC7pending with lookupResult := .ok dbCreatedC7 }

/-- Startup listing with one healthy network, one failing validation and one
failing start. -/
def netsC8 : List NetInfo :=
  [{ name := "br0", loadOk := true, validateOk := true, startOk := true },
   { name := "br1", loadOk := true, validateOk := false, startOk := true },
   { name := "br2", loadOk := true, validateOk := true, startOk := false }]

def dbC4 : DbNetwork :=
  { name := "br0"
    managed := true
    type := "bridge"
    description := ""
    status := "Created"
    config := [("ipv4.address", "10.0.0.1/24"), ("parent", "eth1")] }

/-- A clustered no-target PUT carrying a node-specific key. -/
def envC4reject : PutEnv :=
  { forwarded := false
    lookupResult := .ok dbC4
    target := ""
    clusteredResult := .ok true
    clientEtag := none
    decodeOk := true
    reqConfig := [("parent", "eth2")]
    method := "PUT"
    loadOk := true
    driverConfig := [("ipv4.address", "10.0.0.1/24"), ("parent", "eth1")]
    validateOk := true
    updateOk := true }

/-- A clustered no-target PUT touching only a global key. -/
def envC4accept : PutEnv :=
  { envC4reject with reqConfig := [("ipv4.address", "10.0.0.2/24")] }

/-- A clustered node-targeted PUT that tries to change a global key. -/
def envC4target : PutEnv :=
  { envC4reject with
    target := "node1"
    reqConfig := [("ipv4.address", "10.9.9.9/24")] }

/-- A clustered no-target PUT with a stale client ETag. -/
def envC5stale : PutEnv :=
  { envC4accept with
    clientEtag := some ("br0", true, "bridge", "stale description", [("ipv4.address", "10.0.0.1/24")]) }

/-! ### Helper lemmas on the Go map model -/


theorem cfgGet_eq_none_of_not_mem (c : Config) (k : String) (h : k ∉ c.map Prod.fst) :
    cfgGet c k = none := by
  induction c with
  | nil => rfl
  | cons p c ih =>
    simp only [List.map_cons, List.mem_cons] at h
    push_neg at h
    simp only [cfgGet, List.find?]
    have hne : (p.1 == k) = false := by
      simp only [beq_eq_false_iff_ne]
      exact fun hk => h.1 hk.symm
    rw [hne]
    exact ih h.2

theorem cfgGet_cfgSet_self (c : Config) (k v : String) :
    cfgGet (cfgSet c k v) k = some v := by
  induction c with
  | nil => simp [cfgSet, cfgGet]
  | cons p c ih =>
    by_cases h : p.1 = k
    · simp [cfgSet, h, cfgGet]
    · simp only [cfgSet, if_neg h, cfgGet, List.find?]
      have hne : (p.1 == k) = false := by simpa using h
      rw [hne]
      exact ih

theorem cfgGet_cfgSet_ne (c : Config) (k v k' : String) (h : k' ≠ k) :
    cfgGet (cfgSet c k v) k' = cfgGet c k' := by
  induction c with
  | nil =>
    simp only [cfgSet, cfgGet, List.find?]
    have hne : (k == k') = false := by simpa using fun hk => h hk.symm
    rw [hne]
  | cons p c ih =>
    by_cases hp : p.1 = k
    · simp only [cfgSet, if_pos hp, cfgGet, List.find?]
      have h1 : (k == k') = false := by simpa using fun hk => h hk.symm
      have h2 : (p.1 == k') = false := by
        simpa using fun hk => h (hp ▸ hk).symm
      rw [h1, h2]
    · simp only [cfgSet, if_neg hp, cfgGet, List.find?]
      cases hq : (p.1 == k') with
      | true => rfl
      | false => exact ih

theorem mergeNs_cons (nsKeys : List String) (p : String × String) (dc req : Config) :
    mergeNs nsKeys (p :: dc) req =
      mergeNs nsKeys dc (if nsKeys.contains p.1 then cfgSet req p.1 p.2 else req) := rfl

theorem mergePatch_cons (p : String × String) (dc req : Config) :
    mergePatch (p :: dc) req =
      mergePatch dc
        (match cfgGet req p.1 with
          | some _ => req
          | none => cfgSet req p.1 p.2) := rfl

theorem cfgGet_mergeNs (nsKeys : List String) (dc : Config) (k : String)
    (hk : nsKeys.contains k = true) (hnd : (dc.map Prod.fst).Nodup) :
    ∀ req : Config, cfgGet (mergeNs nsKeys dc req) k = ((cfgGet dc k).or (cfgGet req k)) := by
  induction dc with
  | nil =>
    intro req
    show cfgGet req k = Option.or none (cfgGet req k)
    rfl
  | cons p dc ih =>
    intro req
    simp only [List.map_cons, List.nodup_cons] at hnd
    rw [mergeNs_cons]
    by_cases hp : p.1 = k
    · have hcont : nsKeys.contains p.1 = true := by rw [hp]; exact hk
      have hdc : cfgGet dc k = none :=
        cfgGet_eq_none_of_not_mem dc k (hp ▸ hnd.1)
      rw [if_pos hcont]
      rw [ih hnd.2 (cfgSet req p.1 p.2), hdc, hp, cfgGet_cfgSet_self]
      have hhead : cfgGet (p :: dc) k = some p.2 := by
        simp only [cfgGet, List.find?]
        have hbeq : (p.1 == k) = true := by simpa using hp
        rw [hbeq]
        rfl
      rw [hhead]
      rfl
  
    · have hhead : cfgGet (p :: dc) k = cfgGet dc k := by
        simp only [cfgGet, List.find?]
        have hne : (p.1 == k) = false := by simpa using hp
        rw [hne]
      cases hcont : nsKeys.contains p.1 with
      | true =>
        rw [if_pos rfl]
        rw [ih hnd.2 (cfgSet req p.1 p.2), hhead,
          cfgGet_cfgSet_ne req p.1 p.2 k fun h => hp h.symm]
      | false =>
        rw [if_neg Bool.false_ne_true]
        rw [ih hnd.2 req, hhead]

theorem cfgGet_mergePatch (dc : Config) (k : String) :
    ∀ req : Config, cfgGet (mergePatch dc req) k = ((cfgGet req k).or (cfgGet dc k)) := by
  induction dc with
  | nil =>
    intro req
    show cfgGet req k = (cfgGet req k).or none
    cases cfgGet req k <;> rfl
  | cons p dc ih =>
    intro req
    rw [mergePatch_cons]
    by_cases hp : p.1 = k
    · have hhead : cfgGet (p :: dc) k = some p.2 := by
        simp only [cfgGet, List.find?]
        have hbeq : (p.1 == k) = true := by simpa using hp
        rw [hbeq]
        rfl
      cases hq : cfgGet req p.1 with
      | some w =>
        rw [ih req, hhead]
        rw [hp] at hq
        rw [hq]
        rfl
      | none =>
        rw [ih (cfgSet req p.1 p.2), hhead]
        rw [hp] at hq
        rw [hq, hp, cfgGet_cfgSet_self]
        rfl
    · have hhead : cfgGet (p :: dc) k = cfgGet dc k := by
        simp only [cfgGet, List.find?]
        have hne : (p.1 == k) = false := by simpa using hp
        rw [hne]
      cases hq : cfgGet req p.1 with
      | some w =>
        rw [ih req, hhead]
      | none =>
        rw [ih (cfgSet req p.1 p.2), hhead,
          cfgGet_cfgSet_ne req p.1 p.2 k fun h => hp h.symm]

theorem cfgGet_none_of_no_ns (nsKeys : List String) (req : Config) (k : String)
    (hany : req.any (fun p => nsKeys.contains p.1) = false)
    (hk : nsKeys.contains k = true) :
    cfgGet req k = none := by
  induction req with
  | nil => rfl
  | cons p req ih =>
    simp only [List.any_cons, Bool.or_eq_false_iff] at hany
    have hne : (p.1 == k) = false := by
      simp only [beq_eq_false_iff_ne]
      intro h
      rw [h] at hany
      rw [hany.1] at hk
      exact absurd hk (by decide)
    simp only [cfgGet, List.find?, hne]
    exact ih hany.2

theorem stripKeys_eq_stripSpec (ks : List String) :
    ∀ c : Config, stripKeys ks c = stripSpec ks c := by
  induction ks with
  | nil =>
    intro c
    show c = List.filter (fun p => !(List.contains [] p.1)) c
    exact (List.filter_eq_self.mpr fun p _ => rfl).symm
  | cons k ks ih =>
    intro c
    show stripKeys ks (cfgDel c k) = stripSpec (k :: ks) c
    rw [ih (cfgDel c k)]
    simp only [stripSpec, cfgDel, List.filter_filter]
    apply List.filter_congr
    intro p _
    by_cases h : p.1 = k <;> by_cases h2 : p.1 ∈ ks <;> simp [h, h2]

/-! ### Trace lemmas for the creation coordinator -/

theorem dnc_no_db (drv : Driver) (cn : Bool) :
    ∀ e ∈ (doNetworksCreate drv cn).2, e.isDbWrite = false := by
  obtain ⟨l, v, c, s⟩ := drv
  cases l <;> cases v <;> cases c <;> cases s <;>
    simp [doNetworksCreate, Eff.isDbWrite]

theorem fanOut_no_db (configs : String → Config) :
    ∀ (ps : List Peer) (cfg : Config), ∀ e ∈ (fanOut configs cfg ps).2.2, e.isDbWrite = false := by
  intro ps
  induction ps with
  | nil =>
    intro cfg e he
    simp [fanOut] at he
  | cons p ps ih =>
    intro cfg e he
    by_cases h1 : p.getServerOk = false
    · rw [fanOut, if_pos h1] at he
      simp at he
    · rw [fanOut, if_neg h1] at he
      by_cases h2 : p.createOk = false
      · rw [if_pos h2] at he
        simp only [List.mem_singleton] at he
        subst he
        rfl
      · rw [if_neg h2] at he
        simp only [List.mem_cons] at he
        rcases he with he | he
        · subst he
          rfl
        · exact ih _ e he

theorem pcRealize_no_db (drv : Driver) (configs : String → Config) (cfg1 : Config)
    (peers : List Peer) :
    ∀ e ∈ (pcRealize drv configs cfg1 peers).2, e = Eff.dbMarkErrored ∨ e.isDbWrite = false := by
  intro e he
  unfold pcRealize at he
  rcases hd : doNetworksCreate drv false with ⟨rd, dtr⟩
  rw [hd] at he
  have hdtr : ∀ x ∈ dtr, Eff.isDbWrite x = false := by
    intro x hx
    have := dnc_no_db drv false x
    rw [hd] at this
    exact this hx
  rcases rd with _ | _
  · simp only [List.mem_append, List.mem_singleton] at he
    rcases he with he | he
    · exact Or.inr (hdtr e he)
    · exact Or.inl he
  · rcases hf : fanOut configs cfg1 peers with ⟨rf, cfg2, ptr⟩
    rw [hf] at he
    have hptr : ∀ x ∈ ptr, Eff.isDbWrite x = false := by
      intro x hx
      have := fanOut_no_db configs peers cfg1 x
      rw [hf] at this
      exact this hx
    rcases rf with _ | _
    · simp only [List.mem_append, List.mem_singleton] at he
      rcases he with (he | he) | he
      · exact Or.inr (hdtr e he)
      · exact Or.inr (hptr e he)
      · exact Or.inl he
    · simp only [List.mem_append] at he
      rcases he with he | he
      · exact Or.inr (hdtr e he)
      · exact Or.inr (hptr e he)

theorem pcRealize_shape (drv : Driver) (configs : String → Config) (cfg1 : Config)
    (peers : List Peer) :
    (∃ tr, pcRealize drv configs cfg1 peers = (.ok (), tr)) ∨
    (∃ tr, pcRealize drv configs cfg1 peers = (.error (), tr ++ [Eff.dbMarkErrored])) := by
  unfold pcRealize
  rcases doNetworksCreate drv false with ⟨rd, dtr⟩
  rcases rd with _ | _
  · right
    exact ⟨dtr, rfl⟩
  · rcases fanOut configs cfg1 peers with ⟨rf, cfg2, ptr⟩
    rcases rf with _ | _
    · right
      exact ⟨dtr ++ ptr, by simp⟩
    · left
      exact ⟨dtr ++ ptr, rfl⟩

theorem pcRealize_errored (drv : Driver) (configs : String → Config) (cfg1 : Config)
    (peers : List Peer) (h : (pcRealize drv configs cfg1 peers).1 = .error ()) :
    Eff.dbMarkErrored ∈ (pcRealize drv configs cfg1 peers).2 := by
  rcases pcRealize_shape drv configs cfg1 peers with ⟨tr, hs⟩ | ⟨tr, hs⟩
  · rw [hs] at h
    simp at h
  · rw [hs]
    simp

theorem pcAfterTx_shape (nok mok : Bool) (drv : Driver) (configs : String → Config)
    (cfg1 : Config) (peers : List Peer) :
    pcAfterTx nok mok drv configs cfg1 peers = (.error (), [.dbCreateNetworkConfig]) ∨
    pcAfterTx nok mok drv configs cfg1 peers = (.error (), [.dbCreateNetworkConfig, .dbMarkErrored]) ∨
    pcAfterTx nok mok drv configs cfg1 peers =
      ((pcRealize drv configs cfg1 peers).1,
        .dbCreateNetworkConfig :: .dbMarkCreated :: (pcRealize drv configs cfg1 peers).2) := by
  cases nok with
  | false => left; rfl
  | true =>
    cases mok with
    | false => right; left; rfl
    | true => right; right; rfl

/-- Every run of `networksPostCluster` has one of four trace shapes: three
short early-exit traces, or the main shape `config-insert, mark-created`
followed by the realization tail. -/
theorem pc_shape (nsKeys : List String) (req : NetworksPostReq) (env : PCEnv) :
    networksPostCluster nsKeys req env = (.error (), []) ∨
    networksPostCluster nsKeys req env = (.error (), [.dbCreateNetworkConfig]) ∨
    networksPostCluster nsKeys req env = (.error (), [.dbCreateNetworkConfig, .dbMarkErrored]) ∨
    ∃ configs cfg1,
      networksPostCluster nsKeys req env =
        ((pcRealize env.drv configs cfg1 env.peers).1,
          .dbCreateNetworkConfig :: .dbMarkCreated :: (pcRealize env.drv configs cfg1 env.peers).2) := by
  unfold networksPostCluster
  cases h0 : req.config.any (fun p => nsKeys.contains p.1) with
  | true => left; rfl
  | false =>
    cases ht : pcTypeOk req env.lookup with
    | false => left; rfl
    | true =>
      rcases hfill : env.fillResult with e | cfg
      · left; rfl
      · rcases htx : env.txResult with e | ⟨configs, nodeName⟩
        · left; rfl
        · rcases pcAfterTx_shape env.notifierOk env.markCreatedOk env.drv configs
            (cfgMerge cfg (configs nodeName)) env.peers with h | h | h
          · right; left; exact h
          · right; right; left; exact h
          · right; right; right
            exact ⟨configs, cfgMerge cfg (configs nodeName), h⟩

theorem no_realize_aux (l : List Eff) (hall : ∀ e ∈ l, e.isRealize = false) :
    ∀ (j : Nat) (e : Eff), l[j]? = some e → e.isRealize = true →
      ∃ i, i < j ∧ l[i]? = some Eff.dbMarkCreated := by
  intro j e hj he
  have hmem : e ∈ l := List.getElem?_mem hj
  rw [hall e hmem] at he
  cases he

theorem realize_after_two (x : Eff) (rest : List Eff) (hx : x.isRealize = false) :
    ∀ (j : Nat) (e : Eff), (x :: Eff.dbMarkCreated :: rest)[j]? = some e → e.isRealize = true →
      ∃ i, i < j ∧ (x :: Eff.dbMarkCreated :: rest)[i]? = some Eff.dbMarkCreated := by
  intro j e hj he
  cases j with
  | zero =>
    rw [List.getElem?_cons_zero] at hj
    injection hj with hj
    rw [← hj, hx] at he
    cases he
  | succ j1 =>
    cases j1 with
    | zero =>
      rw [List.getElem?_cons_succ, List.getElem?_cons_zero] at hj
      injection hj with hj
      rw [← hj] at he
      cases he
    | succ j2 =>
      exact ⟨1, by omega, by rw [List.getElem?_cons_succ, List.getElem?_cons_zero]⟩

/-- Claim C1: in the cluster-promotion path of `POST /networks`, the network's
status is marked created before the local driver create/start and before the
peer fan-out; and if any step after mark-created fails (local realization or
any peer notification), the status is set to errored and the database record
is not deleted. -/
theorem claim_C1_promotion_order_and_compensation (nsKeys : List String)
    (req : NetworksPostReq) (env : PCEnv) :
    (∀ (j : Nat) (e : Eff), ((networksPostCluster nsKeys req env).2)[j]? = some e →
      e.isRealize = true →
      ∃ i, i < j ∧ ((networksPostCluster nsKeys req env).2)[i]? = some Eff.dbMarkCreated)
    ∧ ((networksPostCluster nsKeys req env).1 = .error () →
        Eff.dbMarkCreated ∈ (networksPostCluster nsKeys req env).2 →
        Eff.dbMarkErrored ∈ (networksPostCluster nsKeys req env).2
          ∧ Eff.dbDeleteNetwork ∉ (networksPostCluster nsKeys req env).2) := by
  rcases pc_shape nsKeys req env with h | h | h | ⟨configs, cfg1, h⟩
  · rw [h]
    refine ⟨no_realize_aux [] (by intro e he; cases he), ?_⟩
    intro _ hmem
    cases hmem
  · rw [h]
    refine ⟨no_realize_aux _ (by intro e he; rw [List.mem_singleton] at he; subst he; rfl), ?_⟩
    intro _ hmem
    simp at hmem
  · rw [h]
    refine ⟨no_realize_aux _ ?_, ?_⟩
    · intro e he
      rcases List.mem_cons.mp he with he1 | he1
      · subst he1; rfl
      · rw [List.mem_singleton] at he1; subst he1; rfl
    · intro _ hmem
      simp at hmem
  · rw [h]
    refine ⟨realize_after_two Eff.dbCreateNetworkConfig _ rfl, ?_⟩
    intro herr _
    constructor
    · have hmem : Eff.dbMarkErrored ∈ (pcRealize env.drv configs cfg1 env.peers).2 :=
        pcRealize_errored env.drv configs cfg1 env.peers herr
      simp only [List.mem_cons]
      exact Or.inr (Or.inr hmem)
    · intro hmem
      simp only [List.mem_cons] at hmem
      rcases hmem with hc | hc | hc
      · cases hc
      · cases hc
      · rcases pcRealize_no_db env.drv configs cfg1 env.peers _ hc with he | he
        · cases he
        · cases he

/-- Witness for claim C1 at concrete promotions: in a successful promotion the
peer notification at index 5 is preceded by mark-created, and in a promotion
whose peer notification fails the network ends errored and not deleted. -/
theorem claim_C1_witness :
    (∃ i, i < 5 ∧ ((networksPostCluster ["parent"] reqC2 envC2).2)[i]? = some Eff.dbMarkCreated)
    ∧ (Eff.dbMarkErrored ∈ (networksPostCluster ["parent"] reqC2 envC2fail).2
        ∧ Eff.dbDeleteNetwork ∉ (networksPostCluster ["parent"] reqC2 envC2fail).2) :=
  ⟨(claim_C1_promotion_order_and_compensation ["parent"] reqC2 envC2).1 5
      (.notifyPeer "node2" [("parent", "eth1")]) (by decide) (by decide),
   (claim_C1_promotion_order_and_compensation ["parent"] reqC2 envC2fail).2 (by rfl) (by decide)⟩

/-- Claim C2 (counterexample): in the promotion of `reqC2` on the two-node
cluster `envC2`, the request sent to peer `node2` carries the config
`parent=eth1`, which is the *local* node's node-specific key: `parent` is
node-specific, yet `node2`'s own node config and the global request are both
empty.  The struct copy `nodeReq := req` aliases the Go map, so the local
node's merge leaks into the peer's request. -/
theorem claim_C2_counterexample :
    (networksPostCluster ["parent"] reqC2 envC2).2 =
      [.dbCreateNetworkConfig, .dbMarkCreated, .drvValidate, .drvCreate false, .drvStart,
        .notifyPeer "node2" [("parent", "eth1")]]
    ∧ cfgGet (configsC2 "node2") "parent" = none
    ∧ cfgGet reqC2.config "parent" = none
    ∧ List.contains ["parent"] "parent" = true := ⟨rfl, rfl, rfl, rfl⟩

/-- Claim C3: a `POST /networks` carrying the cluster-notification header
performs no database write; when the request passes the sanity checks it runs
exactly `doNetworksCreate` with the notification flag, which loads the driver,
validates the full config, invokes `Create(true)` then `Start()`, and on start
failure invokes `Delete(true)`. -/
theorem claim_C3_cluster_notification_frame (nsKeys : List String) (env : PostEnv)
    (hcn : env.isCN = true) :
    (∀ e ∈ (networksPost nsKeys env).2, e.isDbWrite = false)
    ∧ (postChecksPass env = true →
        (networksPost nsKeys env).2 = (doNetworksCreate env.drv true).2)
    ∧ (∀ drv : Driver, drv.loadOk = true → drv.validateOk = true →
        ((drv.createOk = true ∧ drv.startOk = false →
            (doNetworksCreate drv true).2 =
              [.drvValidate, .drvCreate true, .drvStart, .drvDelete true])
         ∧ (drv.createOk = true ∧ drv.startOk = true →
            (doNetworksCreate drv true).2 = [.drvValidate, .drvCreate true, .drvStart]))) := by
  have hdrv : ∀ drv : Driver, drv.loadOk = true → drv.validateOk = true →
      ((drv.createOk = true ∧ drv.startOk = false →
          (doNetworksCreate drv true).2 =
            [.drvValidate, .drvCreate true, .drvStart, .drvDelete true])
       ∧ (drv.createOk = true ∧ drv.startOk = true →
          (doNetworksCreate drv true).2 = [.drvValidate, .drvCreate true, .drvStart])) := by
    intro drv hl hv
    obtain ⟨l, v, c, s⟩ := drv
    cases l <;> cases v <;> cases c <;> cases s <;>
      simp_all [doNetworksCreate]
  have hcnBranch : ∀ r : Except Unit Unit × List Eff,
      doNetworksCreate env.drv true = r →
      (match r with
        | (.ok _, tr) => (Resp.syncLocation env.req.name, tr)
        | (.error _, tr) => (Resp.smartError, tr)).2 = r.2 := by
    intro r _
    rcases r with ⟨rr, tr⟩
    rcases rr with _ | _ <;> rfl
  refine ⟨?_, ?_, hdrv⟩
  · intro e he
    unfold networksPost at he
    by_cases h1 : env.decodeOk = false
    · rw [if_pos h1] at he
      cases he
    · rw [if_neg h1] at he
      by_cases h2 : env.req.name = ""
      · rw [if_pos h2] at he
        cases he
      · rw [if_neg h2] at he
        by_cases h3 : env.validateNameOk = false
        · rw [if_pos h3] at he
          cases he
        · rw [if_neg h3] at he
          by_cases h4 : (["bridge", "macvlan", "sriov"].contains (effReqType env.req.type)) = false
          · rw [if_pos h4] at he
            cases he
          · rw [if_neg h4, if_pos hcn] at he
            rcases hd : doNetworksCreate env.drv true with ⟨rr, tr⟩
            rw [hd] at he
            have hno : ∀ x ∈ tr, Eff.isDbWrite x = false := by
              intro x hx
              have := dnc_no_db env.drv true x
              rw [hd] at this
              exact this hx
            rcases rr with _ | _
            · exact hno e he
            · exact hno e he
  · intro hpass
    unfold postChecksPass at hpass
    simp only [Bool.and_eq_true, Bool.not_eq_true'] at hpass
    obtain ⟨⟨⟨hd1, hd2⟩, hd3⟩, hd4⟩ := hpass
    unfold networksPost
    rw [if_neg (by rw [hd1]; decide),
      if_neg (by simpa using hd2),
      if_neg (by rw [hd3]; decide),
      if_neg (by rw [hd4]; decide),
      if_pos hcn]
    rcases hd : doNetworksCreate env.drv true with ⟨rr, tr⟩
    rcases rr with _ | _ <;> rfl

/-- Witness for claim C3: a concrete cluster-notification create whose driver
start fails performs only `validate, create(true), start, delete(true)` and no
database write. -/
theorem claim_C3_witness :
    (∀ e ∈ (networksPost ["parent"] envC3).2, e.isDbWrite = false)
    ∧ (networksPost ["parent"] envC3).2 =
        [.drvValidate, .drvCreate true, .drvStart, .drvDelete true] := by
  have h := claim_C3_cluster_notification_frame ["parent"] envC3 rfl
  refine ⟨h.1, ?_⟩
  have h2 := h.2.1 (by decide)
  have h3 := (h.2.2 envC3.drv rfl rfl).1 ⟨rfl, rfl⟩
  rw [h2, h3]

/-- Claim C9 (counterexample): on a single-node deployment, `POST /networks`
with a name already in use returns BadRequest ("The network already exists"),
not Conflict as the claim states. -/
theorem claim_C9_counterexample :
    networksPost ["parent"] envC9 = (.badRequest, []) ∧ Resp.badRequest ≠ Resp.conflict :=
  ⟨rfl, by decide⟩

/-- Claim C9 (amended): on a single-node deployment, `POST /networks` with no
target whose name is already in use fails with BadRequest and inserts nothing;
otherwise the database record is inserted before the driver create/start, and
on any failure after the insert the record is deleted again (compensation). -/
theorem claim_C9_amended_single_node (nsKeys : List String) (env : PostEnv) (ifs : List String)
    (hcn : env.isCN = false) (ht : env.target = "") (hcount : env.countResult = .ok 1)
    (hpass : postChecksPass env = true)
    (hfill : ∃ c, env.fillResult = .ok c)
    (hifs : env.interfacesResult = .ok ifs) :
    (ifs.contains env.req.name = true → networksPost nsKeys env = (.badRequest, []))
    ∧ (ifs.contains env.req.name = false → env.createNetworkOk = true →
        (((networksPost nsKeys env).2)[0]? = some Eff.dbCreateNetwork
         ∧ ((doNetworksCreate env.drv false).1 = .error () →
              (networksPost nsKeys env).1 = .smartError
              ∧ Eff.dbDeleteNetwork ∈ (networksPost nsKeys env).2)
         ∧ ((doNetworksCreate env.drv false).1 = .ok () →
              (networksPost nsKeys env).2 =
                Eff.dbCreateNetwork :: (doNetworksCreate env.drv false).2
              ∧ Eff.dbDeleteNetwork ∉ (networksPost nsKeys env).2))) := by
  obtain ⟨c, hfillEq⟩ := hfill
  unfold postChecksPass at hpass
  simp only [Bool.and_eq_true, Bool.not_eq_true'] at hpass
  obtain ⟨⟨⟨h1, h2⟩, h3⟩, h4⟩ := hpass
  have hval : networksPost nsKeys env =
      (if ifs.contains env.req.name then ((.badRequest : Resp), ([] : List Eff))
       else if env.createNetworkOk = false then (.smartError, [])
       else
         match doNetworksCreate env.drv false with
         | (.ok _, tr) => (.syncLocation env.req.name, .dbCreateNetwork :: tr)
         | (.error _, tr) => (.smartError, .dbCreateNetwork :: (tr ++ [.dbDeleteNetwork]))) := by
    unfold networksPost
    rw [if_neg (by rw [h1]; decide), if_neg (by simpa using h2), if_neg (by rw [h3]; decide),
      if_neg (by rw [h4]; decide), if_neg (by rw [hcn]; decide), if_neg (by rw [ht]; simp),
      hcount, hfillEq, hifs]
    rfl
  constructor
  · intro hcont
    rw [hval, if_pos hcont]
  · intro hcont hcreate
    rw [hval, if_neg (by rw [hcont]; decide), if_neg (by rw [hcreate]; decide)]
    rcases hd : doNetworksCreate env.drv false with ⟨rr, tr⟩
    have hno : Eff.dbDeleteNetwork ∉ tr := by
      intro hx
      have hq := dnc_no_db env.drv false Eff.dbDeleteNetwork
      rw [hd] at hq
      exact absurd (hq hx) (by decide)
    rcases rr with _ | _
    · refine ⟨?_, ?_, ?_⟩
      · show (Eff.dbCreateNetwork :: (tr ++ [Eff.dbDeleteNetwork]))[0]? = some Eff.dbCreateNetwork
        rw [List.getElem?_cons_zero]
      · intro _
        refine ⟨rfl, ?_⟩
        show Eff.dbDeleteNetwork ∈ Eff.dbCreateNetwork :: (tr ++ [Eff.dbDeleteNetwork])
        simp
      · intro hok
        simp at hok
    · refine ⟨?_, ?_, ?_⟩
      · show (Eff.dbCreateNetwork :: tr)[0]? = some Eff.dbCreateNetwork
        rw [List.getElem?_cons_zero]
      · intro herr
        simp at herr
      · intro _
        refine ⟨rfl, ?_⟩
        intro hmem
        rcases List.mem_cons.mp hmem with hc | hc
        · cases hc
        · exact hno hc

/-- Witness for the amended claim C9: the duplicate-name request is rejected
with BadRequest, and a single-node create whose driver start fails ends with
the inserted record deleted again. -/
theorem claim_C9_witness :
    networksPost ["parent"] envC9 = (.badRequest, [])
    ∧ (networksPost ["parent"] envC9fail).1 = .smartError
    ∧ Eff.dbDeleteNetwork ∈ (networksPost ["parent"] envC9fail).2 := by
  have h1 := claim_C9_amended_single_node ["parent"] envC9 ["br0", "eth0"] rfl rfl rfl
    (by decide) ⟨[], rfl⟩ rfl
  have h2 := claim_C9_amended_single_node ["parent"] envC9fail ["br0", "eth0"] rfl rfl rfl
    (by decide) ⟨[], rfl⟩ rfl
  refine ⟨h1.1 (by decide), ?_, ?_⟩
  · exact (((h2.2 (by decide)) rfl).2.1 (by rfl)).1
  · exact (((h2.2 (by decide)) rfl).2.1 (by rfl)).2

theorem or_none_eq (o : Option String) : o.or none = o := by
  cases o <;> rfl

theorem networkPut_unfold (nsKeys : List String) (env : PutEnv) (dbInfo : DbNetwork)
    (clustered : Bool) (hfwd : env.forwarded = false)
    (hlk : env.lookupResult = .ok dbInfo) (hcl : env.clusteredResult = .ok clustered) :
    networkPut nsKeys env =
      (if etagMismatch env.clientEtag
          (dbInfo.name, dbInfo.managed, dbInfo.type, dbInfo.description,
            (if env.target = "" ∧ clustered = true then stripKeys nsKeys dbInfo.config
             else dbInfo.config)) then (.preconditionFailed, [])
       else if env.decodeOk = false then (.badRequest, [])
       else if clustered = true ∧ env.target = "" ∧
           env.reqConfig.any (fun p => nsKeys.contains p.1) = true then (.badRequest, [])
       else if clustered = true ∧ env.target ≠ "" ∧
           env.reqConfig.any (fun p => !(nsKeys.contains p.1) &&
             !(cfgGetD (if env.target = "" ∧ clustered = true then stripKeys nsKeys dbInfo.config
                 else dbInfo.config) p.1 == p.2)) = true then (.badRequest, [])
       else doNetworkUpdate nsKeys env clustered) := by
  unfold networkPut
  rw [if_neg (by rw [hfwd]; decide), hlk, hcl]

/-- The merged config that `doNetworkUpdate` hands to the driver. -/
def updMerged (nsKeys : List String) (env : PutEnv) (clustered : Bool) : Config :=
  if env.target = "" ∧ env.method ≠ "PATCH" ∧ clustered = true then
    mergeNs nsKeys env.driverConfig env.reqConfig
  else if env.method = "PATCH" then mergePatch env.driverConfig env.reqConfig
  else env.reqConfig

theorem doNetworkUpdate_trace (nsKeys : List String) (env : PutEnv) (clustered : Bool) :
    (doNetworkUpdate nsKeys env clustered).2 = [] ∨
    (doNetworkUpdate nsKeys env clustered).2 =
      [Eff.drvUpdate (updMerged nsKeys env clustered) env.target] := by
  unfold doNetworkUpdate updMerged
  cases hload : env.loadOk with
  | false => left; rw [if_pos rfl]
  | true =>
    rw [if_neg (by decide)]
    cases hv : env.validateOk with
    | false => left; rw [if_pos rfl]
    | true =>
      rw [if_neg (by decide)]
      cases hu : env.updateOk with
      | false => right; rw [if_pos rfl]
      | true => right; rw [if_neg (by decide)]

/-- Claim C4: on a clustered daemon, PUT/PATCH with no target rejects node-
specific keys with BadRequest (so every node-specific key keeps its current
value in the config handed to the driver update), and with a target rejects
with BadRequest every non-node-specific key whose value differs from the
stored one (so an accepted node-scoped update changes no global key). -/
theorem claim_C4_scope_enforcement (nsKeys : List String) (env : PutEnv) (dbInfo : DbNetwork)
    (hfwd : env.forwarded = false)
    (hlk : env.lookupResult = .ok dbInfo)
    (hcl : env.clusteredResult = .ok true)
    (hnd : (env.driverConfig.map Prod.fst).Nodup) :
    (env.target = "" → env.reqConfig.any (fun p => nsKeys.contains p.1) = true →
       ((networkPut nsKeys env).2 = []
        ∧ (etagMismatch env.clientEtag
             (dbInfo.name, dbInfo.managed, dbInfo.type, dbInfo.description,
               stripKeys nsKeys dbInfo.config) = false →
           env.decodeOk = true →
           networkPut nsKeys env = (.badRequest, []))))
    ∧ (env.target = "" → ∀ (cfg : Config) (t : String),
        Eff.drvUpdate cfg t ∈ (networkPut nsKeys env).2 →
        ∀ k : String, nsKeys.contains k = true → cfgGet cfg k = cfgGet env.driverConfig k)
    ∧ (env.target ≠ "" →
        env.reqConfig.any (fun p => !(nsKeys.contains p.1) &&
          !(cfgGetD dbInfo.config p.1 == p.2)) = true →
        ((networkPut nsKeys env).2 = []
         ∧ (etagMismatch env.clientEtag
              (dbInfo.name, dbInfo.managed, dbInfo.type, dbInfo.description,
                dbInfo.config) = false →
            env.decodeOk = true →
            networkPut nsKeys env = (.badRequest, []))))
    ∧ (env.target ≠ "" → ∀ (cfg : Config) (t : String),
        Eff.drvUpdate cfg t ∈ (networkPut nsKeys env).2 →
        ∀ p ∈ env.reqConfig, nsKeys.contains p.1 = false → cfgGetD dbInfo.config p.1 = p.2) := by
  have hun := networkPut_unfold nsKeys env dbInfo true hfwd hlk hcl
  refine ⟨?_, ?_, ?_, ?_⟩
  · -- no-target rejection
    intro ht hany
    have hstrip : (if env.target = "" ∧ (true : Bool) = true then stripKeys nsKeys dbInfo.config
        else dbInfo.config) = stripKeys nsKeys dbInfo.config := if_pos ⟨ht, rfl⟩
    rw [hstrip] at hun
    cases hm : etagMismatch env.clientEtag
        (dbInfo.name, dbInfo.managed, dbInfo.type, dbInfo.description,
          stripKeys nsKeys dbInfo.config) with
    | true =>
      rw [hm, if_pos rfl] at hun
      exact ⟨by rw [hun], fun hm2 _ => absurd hm2 (by decide)⟩
    | false =>
      rw [hm, if_neg (by decide)] at hun
      cases hdec : env.decodeOk with
      | false =>
        rw [hdec, if_pos rfl] at hun
        exact ⟨by rw [hun], fun _ hd2 => absurd hd2 (by decide)⟩
      | true =>
        rw [hdec, if_neg (by decide), if_pos ⟨rfl, ht, hany⟩] at hun
        exact ⟨by rw [hun], fun _ _ => hun⟩
  · -- no-target acceptance preserves node-specific keys
    intro ht cfg t hmem k hk
    rw [hun] at hmem
    cases hc1 : etagMismatch env.clientEtag
        (dbInfo.name, dbInfo.managed, dbInfo.type, dbInfo.description,
          (if env.target = "" ∧ (true : Bool) = true then stripKeys nsKeys dbInfo.config
           else dbInfo.config)) with
    | true =>
      rw [hc1, if_pos rfl] at hmem
      cases hmem
    | false =>
      rw [hc1, if_neg (by decide)] at hmem
      cases hdec : env.decodeOk with
      | false =>
        rw [hdec, if_pos rfl] at hmem
        cases hmem
      | true =>
        rw [hdec, if_neg (by decide)] at hmem
        cases hany : env.reqConfig.any (fun p => nsKeys.contains p.1) with
        | true =>
          rw [if_pos ⟨rfl, ht, hany⟩] at hmem
          cases hmem
        | false =>
          rw [if_neg (by rintro ⟨-, -, hx⟩; rw [hany] at hx; cases hx),
            if_neg (by rintro ⟨-, hx, -⟩; exact hx ht)] at hmem
          have hreqk : cfgGet env.reqConfig k = none :=
            cfgGet_none_of_no_ns nsKeys env.reqConfig k hany hk
          rcases doNetworkUpdate_trace nsKeys env true with htr | htr
          · rw [htr] at hmem
            cases hmem
          · rw [htr] at hmem
            have heq := List.mem_singleton.mp hmem
            have hcfg : cfg = updMerged nsKeys env true := by
              injection heq
            rw [hcfg]
            unfold updMerged
            by_cases hmeth : env.method = "PATCH"
            · rw [if_neg (by rintro ⟨-, hx, -⟩; exact hx hmeth), if_pos hmeth,
                cfgGet_mergePatch env.driverConfig k env.reqConfig, hreqk]
              rfl
            · rw [if_pos ⟨ht, hmeth, rfl⟩,
                cfgGet_mergeNs nsKeys env.driverConfig k hk hnd env.reqConfig, hreqk,
                or_none_eq]
  · -- node-target rejection
    intro ht hany
    have hstrip : (if env.target = "" ∧ (true : Bool) = true then stripKeys nsKeys dbInfo.config
        else dbInfo.config) = dbInfo.config := if_neg (by rintro ⟨hx, -⟩; exact ht hx)
    rw [hstrip] at hun
    cases hm : etagMismatch env.clientEtag
        (dbInfo.name, dbInfo.managed, dbInfo.type, dbInfo.description, dbInfo.config) with
    | true =>
      rw [hm, if_pos rfl] at hun
      exact ⟨by rw [hun], fun hm2 _ => absurd hm2 (by decide)⟩
    | false =>
      rw [hm, if_neg (by decide)] at hun
      cases hdec : env.decodeOk with
      | false =>
        rw [hdec, if_pos rfl] at hun
        exact ⟨by rw [hun], fun _ hd2 => absurd hd2 (by decide)⟩
      | true =>
        rw [hdec, if_neg (by decide), if_neg (by rintro ⟨-, hx, -⟩; exact ht hx),
          if_pos ⟨rfl, ht, hany⟩] at hun
        exact ⟨by rw [hun], fun _ _ => hun⟩
  · -- node-target acceptance changes no global key
    intro ht cfg t hmem p hp hpns
    rw [hun] at hmem
    have hstrip : (if env.target = "" ∧ (true : Bool) = true then stripKeys nsKeys dbInfo.config
        else dbInfo.config) = dbInfo.config := if_neg (by rintro ⟨hx, -⟩; exact ht hx)
    rw [hstrip] at hmem
    cases hc1 : etagMismatch env.clientEtag
        (dbInfo.name, dbInfo.managed, dbInfo.type, dbInfo.description, dbInfo.config) with
    | true =>
      rw [hc1, if_pos rfl] at hmem
      cases hmem
    | false =>
      rw [hc1, if_neg (by decide)] at hmem
      cases hdec : env.decodeOk with
      | false =>
        rw [hdec, if_pos rfl] at hmem
        cases hmem
      | true =>
        rw [hdec, if_neg (by decide), if_neg (by rintro ⟨-, hx, -⟩; exact ht hx)] at hmem
        cases hany : env.reqConfig.any (fun q => !(nsKeys.contains q.1) &&
            !(cfgGetD dbInfo.config q.1 == q.2)) with
        | true =>
          rw [if_pos ⟨rfl, ht, hany⟩] at hmem
          cases hmem
        | false =>
          rw [List.any_eq_false] at hany
          have hq := hany p hp
          rw [hpns] at hq
          simp only [Bool.not_false, Bool.true_and, Bool.not_eq_true',
            Bool.not_eq_false] at hq
          exact beq_iff_eq.mp (by simpa using hq)

/-- Witness for claim C4 at concrete updates: a no-target PUT carrying
`parent` is rejected; an accepted no-target PUT hands the driver a config in
which `parent` keeps its current value; a node-targeted PUT changing the
global `ipv4.address` is rejected. -/
theorem claim_C4_witness :
    networkPut ["parent"] envC4reject = (.badRequest, [])
    ∧ cfgGet [("ipv4.address", "10.0.0.2/24"), ("parent", "eth1")] "parent" =
        cfgGet envC4accept.driverConfig "parent"
    ∧ networkPut ["parent"] envC4target = (.badRequest, []) := by
  have h1 := claim_C4_scope_enforcement ["parent"] envC4reject dbC4 rfl rfl rfl (by decide)
  have h2 := claim_C4_scope_enforcement ["parent"] envC4accept dbC4 rfl rfl rfl (by decide)
  have h3 := claim_C4_scope_enforcement ["parent"] envC4target dbC4 rfl rfl rfl (by decide)
  refine ⟨?_, ?_, ?_⟩
  · exact (h1.1 rfl (by decide)).2 (by decide) rfl
  · exact h2.2.1 rfl [("ipv4.address", "10.0.0.2/24"), ("parent", "eth1")] ""
      (by decide) "parent" (by decide)
  · exact (h3.2.2.1 (by decide) (by decide)).2 (by decide) rfl

theorem etagMismatch_some (e t : EtagT) :
    etagMismatch (some e) t = if e = t then false else true := rfl

theorem doNetworkUpdate_ne_precond (nsKeys : List String) (env : PutEnv) (clustered : Bool) :
    (doNetworkUpdate nsKeys env clustered).1 ≠ Resp.preconditionFailed := by
  unfold doNetworkUpdate
  cases hload : env.loadOk with
  | false => rw [if_pos rfl]; decide
  | true =>
    rw [if_neg (by decide)]
    cases hv : env.validateOk with
    | false => rw [if_pos rfl]; decide
    | true =>
      rw [if_neg (by decide)]
      cases hu : env.updateOk with
      | false => rw [if_pos rfl]; simp
      | true => rw [if_neg (by decide)]; simp

/-- Claim C5: for GET/PUT/PATCH on a network, the ETag is the tuple
`(name, managed, type, description, config)` of the stored record with
node-specific keys removed exactly when the target is empty and the daemon is
clustered; a PUT/PATCH whose client ETag differs from this value fails with
PreconditionFailed before any change. -/
theorem claim_C5_etag (nsKeys : List String) (env : PutEnv) (dbInfo : DbNetwork)
    (clustered : Bool) (e : EtagT) (n : ApiNetwork) (target2 : String) (clustered2 : Bool)
    (hfwd : env.forwarded = false)
    (hlk : env.lookupResult = .ok dbInfo)
    (hcl : env.clusteredResult = .ok clustered)
    (hetag : env.clientEtag = some e) :
    ((networkPut nsKeys env).1 = .preconditionFailed ↔
        e ≠ etagSpec nsKeys dbInfo env.target clustered)
    ∧ (e ≠ etagSpec nsKeys dbInfo env.target clustered →
        networkPut nsKeys env = (.preconditionFailed, []))
    ∧ (networkGetResult nsKeys n target2 clustered2).2 =
        (n.name, n.managed, n.type, n.description,
          if target2 = "" ∧ clustered2 = true then stripSpec nsKeys n.config else n.config) := by
  have hget : (networkGetResult nsKeys n target2 clustered2).2 =
      (n.name, n.managed, n.type, n.description,
        if target2 = "" ∧ clustered2 = true then stripSpec nsKeys n.config else n.config) := by
    unfold networkGetResult
    by_cases hc : target2 = "" ∧ clustered2 = true
    · rw [if_pos hc, if_pos hc, stripKeys_eq_stripSpec]
    · rw [if_neg hc, if_neg hc]
  have hun := networkPut_unfold nsKeys env dbInfo clustered hfwd hlk hcl
  have hspec : (dbInfo.name, dbInfo.managed, dbInfo.type, dbInfo.description,
      (if env.target = "" ∧ clustered = true then stripKeys nsKeys dbInfo.config
       else dbInfo.config)) = etagSpec nsKeys dbInfo env.target clustered := by
    unfold etagSpec
    by_cases hc : env.target = "" ∧ clustered = true
    · rw [if_pos hc, if_pos hc, stripKeys_eq_stripSpec]
    · rw [if_neg hc, if_neg hc]
  rw [hspec, hetag, etagMismatch_some] at hun
  by_cases he : e = etagSpec nsKeys dbInfo env.target clustered
  · rw [if_pos he, if_neg (by decide)] at hun
    have hne : (networkPut nsKeys env).1 ≠ .preconditionFailed := by
      rw [hun]
      cases hdec : env.decodeOk with
      | false => rw [if_pos rfl]; decide
      | true =>
        rw [if_neg (by decide)]
        by_cases h3 : clustered = true ∧ env.target = "" ∧
            env.reqConfig.any (fun p => nsKeys.contains p.1) = true
        · rw [if_pos h3]; decide
        · rw [if_neg h3]
          by_cases h4 : clustered = true ∧ env.target ≠ "" ∧
              env.reqConfig.any (fun p => !(nsKeys.contains p.1) &&
                !(cfgGetD (if env.target = "" ∧ clustered = true then
                    stripKeys nsKeys dbInfo.config else dbInfo.config) p.1 == p.2)) = true
          · rw [if_pos h4]; decide
          · rw [if_neg h4]
            exact doNetworkUpdate_ne_precond nsKeys env clustered
    refine ⟨⟨fun hp => absurd hp hne, fun hcon => absurd he hcon⟩,
      fun hcon => absurd he hcon, hget⟩
  · rw [if_neg he, if_pos rfl] at hun
    exact ⟨⟨fun _ => he, fun _ => by rw [hun]⟩, fun _ => hun, hget⟩

/-- Witness for claim C5: a PUT whose client ETag has a stale description
fails with PreconditionFailed and performs nothing. -/
theorem claim_C5_witness :
    networkPut ["parent"] envC5stale = (.preconditionFailed, []) := by
  have h := claim_C5_etag ["parent"] envC5stale dbC4 true
    ("br0", true, "bridge", "stale description", [("ipv4.address", "10.0.0.1/24")])
    ⟨"br0", true, "bridge", "", []⟩ "" true rfl rfl rfl rfl
  exact h.2.1 (by decide)

theorem networkDelete_unfold (env : DeleteEnv) (dbn : DbNetwork)
    (hlk : env.lookupResult = .ok dbn) :
    networkDelete env =
      (if dbn.status = "Pending" then
        (if env.dbDeleteOk then ((.emptySync : Resp), [Eff.dbDeleteNetwork])
         else (.smartError, [Eff.dbDeleteNetwork]))
      else if env.loadOk = false then (.notFound, [])
      else if env.isCN then deleteFinish env true
      else
        match env.isUsedResult with
        | .error _ => (.smartError, [])
        | .ok true => (.badRequest, [])
        | .ok false =>
          if env.notifierOk = false then (.smartError, [])
          else if env.peerDeleteOk = false then (.smartError, [.notifyDelete])
          else
            ((deleteFinish env false).1, .notifyDelete :: (deleteFinish env false).2)) := by
  unfold networkDelete
  rw [hlk]

/-- Claim C7: deleting a pending network only removes the database row (no
driver call, no fan-out); deleting a non-pending in-use network on a plain
request returns BadRequest with no effects; otherwise the DELETE fan-out to
all peers precedes the local driver delete. -/
theorem claim_C7_delete_paths (env : DeleteEnv) (dbn : DbNetwork)
    (hlk : env.lookupResult = .ok dbn) :
    (dbn.status = "Pending" → (networkDelete env).2 = [Eff.dbDeleteNetwork])
    ∧ (dbn.status ≠ "Pending" → env.isCN = false → env.loadOk = true →
        env.isUsedResult = .ok true → networkDelete env = (.badRequest, []))
    ∧ (dbn.status ≠ "Pending" → env.isCN = false → env.loadOk = true →
        env.isUsedResult = .ok false →
        ∀ (j : Nat) (b : Bool), ((networkDelete env).2)[j]? = some (Eff.drvDelete b) →
          ∃ i, i < j ∧ ((networkDelete env).2)[i]? = some Eff.notifyDelete) := by
  have hun := networkDelete_unfold env dbn hlk
  refine ⟨?_, ?_, ?_⟩
  · intro hst
    rw [hun, if_pos hst]
    cases hdb : env.dbDeleteOk with
    | false => rw [if_neg (by decide)]
    | true => rw [if_pos rfl]
  · intro hst hcn hload hused
    rw [hun, if_neg hst, if_neg (by rw [hload]; decide), if_neg (by rw [hcn]; decide), hused]
  · intro hst hcn hload hused j b hj
    rw [hun, if_neg hst, if_neg (by rw [hload]; decide), if_neg (by rw [hcn]; decide),
      hused] at hj ⊢
    cases hn : env.notifierOk with
    | false =>
      rw [hn, if_pos rfl] at hj
      simp at hj
    | true =>
      rw [hn, if_neg (by decide)] at hj
      rw [if_neg (by decide)]
      cases hp : env.peerDeleteOk with
      | false =>
        rw [hp, if_pos rfl] at hj
        cases j with
        | zero => simp at hj
        | succ j1 => simp at hj
      | true =>
        rw [hp, if_neg (by decide)] at hj
        rw [if_neg (by decide)]
        cases j with
        | zero => simp at hj
        | succ j1 =>
          refine ⟨0, by omega, ?_⟩
          simp

/-- Witness for claim C7: a pending delete touches only the DB row, an in-use
delete fails with BadRequest and no effects, and a normal delete notifies all
peers before the local driver delete. -/
theorem claim_C7_witness :
    (networkDelete envC7pending).2 = [Eff.dbDeleteNetwork]
    ∧ networkDelete envC7used = (.badRequest, [])
    ∧ ∃ i, i < 1 ∧ ((networkDelete envC7free).2)[i]? = some Eff.notifyDelete := by
  have h1 := claim_C7_delete_paths envC7pending dbPendingC7 rfl
  have h2 := claim_C7_delete_paths envC7used dbCreatedC7 rfl
  have h3 := claim_C7_delete_paths envC7free dbCreatedC7 rfl
  exact ⟨h1.1 rfl, h2.2.1 (by decide) rfl rfl rfl,
    h3.2.2 (by decide) rfl rfl rfl 1 false (by decide)⟩

theorem startupLoop_ok : ∀ ns : List NetInfo, (∀ n ∈ ns, n.loadOk = true) →
    startupLoop ns = (.ok (), startupSpecTrace ns) := by
  intro ns
  induction ns with
  | nil => intro _; rfl
  | cons n ns ih =>
    intro h
    have hn : n.loadOk = true := h n (List.mem_cons_self n ns)
    have hns : ∀ m ∈ ns, m.loadOk = true := fun m hm => h m (List.mem_cons_of_mem n hm)
    have hcons : startupSpecTrace (n :: ns) =
        .startupValidate n.name ::
          ((if n.validateOk then [Eff.startupStart n.name] else []) ++ startupSpecTrace ns) := rfl
    unfold startupLoop
    rw [if_neg (by rw [hn]; decide), hcons]
    cases hv : n.validateOk with
    | false =>
      rw [if_pos rfl, ih hns]
      simp
    | true =>
      rw [if_neg (by decide), ih hns]
      simp

/-- Claim C8: at startup, for every non-pending managed network the reconciler
attempts `validate` and then `start` (skipping `start` when `validate` fails),
and the routine returns no error regardless of which networks fail validation
or start — provided each network record loads. -/
theorem claim_C8_startup (nets : List NetInfo) (h : ∀ n ∈ nets, n.loadOk = true) :
    networkStartup (.ok nets) = (.ok (), startupSpecTrace nets) :=
  startupLoop_ok nets h

/-- Witness for claim C8: a startup listing with one healthy network, one
failing validation and one failing start still succeeds, starting exactly the
networks that validated. -/
theorem claim_C8_witness :
    networkStartup (.ok netsC8) =
      (.ok (), [.startupValidate "br0", .startupStart "br0", .startupValidate "br1",
        .startupValidate "br2", .startupStart "br2"]) := by
  have h := claim_C8_startup netsC8 (by decide)
  rw [h]
  rfl

theorem processLeaseLine_shape (sn : String) (ls : List Lease) (line : String) :
    processLeaseLine sn ls line = none ∨
    processLeaseLine sn ls line = some ls ∨
    ∃ l : Lease, processLeaseLine sn ls line = some (ls ++ [l])
      ∧ l.location = sn ∧ l.type = "dynamic"
      ∧ ∀ e ∈ ls, ¬(e.hwaddr = l.hwaddr ∧ e.address = l.address) := by
  unfold processLeaseLine
  by_cases h5 : (goFields line).length ≥ 5
  · rw [if_pos h5]
    rcases hm : leaseLineMac line with _ | mac
    · left
      rfl
    · right
      show some (leaseAdd sn ls line mac) = some ls ∨
        ∃ l : Lease, some (leaseAdd sn ls line mac) = some (ls ++ [l])
          ∧ l.location = sn ∧ l.type = "dynamic"
          ∧ ∀ e ∈ ls, ¬(e.hwaddr = l.hwaddr ∧ e.address = l.address)
      unfold leaseAdd
      cases hdup : ls.any (fun e => e.hwaddr == mac &&
          e.address == (goFields line).getD 2 "") with
      | true =>
        left
        rw [if_pos rfl]
      | false =>
        right
        refine ⟨⟨(goFields line).getD 3 "", (goFields line).getD 2 "", mac, "dynamic", sn⟩,
          ?_, rfl, rfl, ?_⟩
        · rw [if_neg (by decide)]
        · intro e he hcontra
          have hq := List.any_eq_false.mp hdup e he
          apply hq
          rw [hcontra.1, hcontra.2]
          simp
  · rw [if_neg h5]
    right
    left
    rfl

theorem processLines_location (sn : String) :
    ∀ (lines : List String) (init res : List Lease),
      processLines sn init lines = some res →
      ∀ l ∈ res, l ∈ init ∨ (l.location = sn ∧ l.type = "dynamic") := by
  intro lines
  induction lines with
  | nil =>
    intro init res h l hl
    unfold processLines at h
    injection h with h
    subst h
    exact Or.inl hl
  | cons line rest ih =>
    intro init res h l hl
    unfold processLines at h
    rcases hp : processLeaseLine sn init line with _ | mid
    · rw [hp] at h
      cases h
    · rw [hp] at h
      rcases ih mid res h l hl with hmid | hmid
    
      · rcases processLeaseLine_shape sn init line with hs | hs | ⟨l2, hs, hloc, htyp, -⟩
        · rw [hs] at hp
          cases hp
        · rw [hs] at hp
          injection hp with hp
          subst hp
          exact Or.inl hmid
        · rw [hs] at hp
          injection hp with hp
          subst hp
          rcases List.mem_append.mp hmid with hmem | hmem
          · exact Or.inl hmem
          · rw [List.mem_singleton] at hmem
            subst hmem
            exact Or.inr ⟨hloc, htyp⟩
      · exact Or.inr hmid

theorem leasesTail_filter (env : LeasesEnv) (leases : List Lease) (macs : List String)
    (ls : List Lease) (hcn : env.isCN = false) (hfile : env.fileExists = true)
    (hok : leasesTail env leases macs = .ok ls) :
    ∀ l ∈ ls, macs.contains l.hwaddr = true := by
  intro l hl
  unfold leasesTail at hok
  cases hsn : env.serverNameOk with
  | false =>
    rw [hsn, if_pos rfl] at hok
    exact LeasesOutcome.noConfusion hok
  | true =>
    rw [hsn, if_neg (by decide), hfile, if_neg (by decide)] at hok
    cases hread : env.readOk with
    | false =>
      rw [hread, if_pos rfl] at hok
      exact LeasesOutcome.noConfusion hok
    | true =>
      rw [hread, if_neg (by decide)] at hok
      rcases hproc : processLines env.serverName leases (goSplitLines env.content) with _ | leases2
      · rw [hproc] at hok
        exact LeasesOutcome.noConfusion hok
      · rw [hproc, hcn] at hok
        cases hnot : env.notifierOk with
        | false =>
          rw [hnot] at hok
          have hok2 : LeasesOutcome.err = LeasesOutcome.ok ls := hok
          exact LeasesOutcome.noConfusion hok2
        | true =>
          rw [hnot] at hok
          rcases hpl : env.peerLeases with _ | pl
          · rw [hpl] at hok
            have hok2 : LeasesOutcome.err = LeasesOutcome.ok ls := hok
            exact LeasesOutcome.noConfusion hok2
          · rw [hpl] at hok
            have hok2 : LeasesOutcome.ok
                ((leases2 ++ pl).filter (fun x => macs.contains x.hwaddr))
                = LeasesOutcome.ok ls := hok
            injection hok2 with hok2
            subst hok2
            exact (List.mem_filter.mp hl).2

/-- Claim C6 (counterexample): for a non-notification lease request whose
local lease file does not exist, the handler returns the static leases
*without* applying the project-MAC filter: the returned list contains a lease
whose hwaddr (here the empty string, from an instance with no configured MAC)
is not in the project MAC set (here empty). -/
theorem claim_C6_counterexample :
    networkLeasesGet envC6 = .ok [⟨"inst1", "10.0.0.9", "", "static", "node9"⟩]
    ∧ (staticLeases "br0" [instC6]).2 = []
    ∧ ((staticLeases "br0" [instC6]).2.contains "") = false :=
  ⟨rfl, rfl, rfl⟩

/-- Claim C6 (amended): a parsed dynamic lease line is skipped whenever the
result list already holds the same `(hwaddr, address)` pair; each locally
parsed dynamic lease carries the local node name as location; and when the
request is not a cluster notification *and the local lease file exists*, the
final returned list contains only leases whose hwaddr is in the project MAC
set. -/
theorem claim_C6_amended_leases :
    (∀ (sn : String) (ls : List Lease) (line : String),
      processLeaseLine sn ls line = none ∨
      processLeaseLine sn ls line = some ls ∨
      ∃ l : Lease, processLeaseLine sn ls line = some (ls ++ [l])
        ∧ l.location = sn ∧ l.type = "dynamic"
        ∧ ∀ e ∈ ls, ¬(e.hwaddr = l.hwaddr ∧ e.address = l.address))
    ∧ (∀ (sn : String) (lines : List String) (init res : List Lease),
        processLines sn init lines = some res →
        ∀ l ∈ res, l ∈ init ∨ (l.location = sn ∧ l.type = "dynamic"))
    ∧ (∀ (env : LeasesEnv) (ls : List Lease), env.isCN = false → env.fileExists = true →
        networkLeasesGet env = .ok ls →
        ∀ l ∈ ls, (staticLeases env.netName env.instances).2.contains l.hwaddr = true) := by
  refine ⟨processLeaseLine_shape, processLines_location, ?_⟩
  intro env ls hcn hfile hok l hl
  unfold networkLeasesGet at hok
  cases hnet : env.netOk with
  | false =>
    rw [hnet, if_pos rfl] at hok
    exact LeasesOutcome.noConfusion hok
  | true =>
    rw [hnet, if_neg (by decide)] at hok
    by_cases hman : env.managed = false ∨ env.netType ≠ "bridge"
    · rw [if_pos hman] at hok
      exact LeasesOutcome.noConfusion hok
    · rw [if_neg hman] at hok
      rw [hcn] at hok
      cases hinst : env.instancesOk with
      | false =>
        rw [hinst] at hok
        have hok2 : LeasesOutcome.err = LeasesOutcome.ok ls := hok
        exact LeasesOutcome.noConfusion hok2
      | true =>
        rw [hinst] at hok
        have hok2 : leasesTail env (staticLeases env.netName env.instances).1
            (staticLeases env.netName env.instances).2 = .ok ls := hok
        exact leasesTail_filter env _ _ ls hcn hfile hok2 l hl

/-- Witness for the amended claim C6 on a concrete two-lease scenario: the
dynamic lease parsed from the local file survives the project filter because
its MAC is in the project set, and the locally parsed dynamic lease carries
the local node name. -/
theorem claim_C6_witness :
    (staticLeases "br0" [instW6]).2.contains "aa:bb:cc:dd:ee:ff" = true
    ∧ ((⟨"hostx", "10.0.0.7", "aa:bb:cc:dd:ee:ff", "dynamic", "node1"⟩ : Lease) ∈ ([] : List Lease)
       ∨ (Lease.location ⟨"hostx", "10.0.0.7", "aa:bb:cc:dd:ee:ff", "dynamic", "node1"⟩ = "node1"
          ∧ Lease.type ⟨"hostx", "10.0.0.7", "aa:bb:cc:dd:ee:ff", "dynamic", "node1"⟩
            = "dynamic")) := by
  constructor
  · exact claim_C6_amended_leases.2.2 envW6
      [⟨"inst2", "10.0.0.9", "aa:bb:cc:dd:ee:ff", "static", "node1"⟩,
       ⟨"hostx", "10.0.0.7", "aa:bb:cc:dd:ee:ff", "dynamic", "node1"⟩] rfl rfl rfl
      ⟨"hostx", "10.0.0.7", "aa:bb:cc:dd:ee:ff", "dynamic", "node1"⟩ (by decide)
  · exact claim_C6_amended_leases.2.1 "node1"
      (goSplitLines "1 aa:bb:cc:dd:ee:ff 10.0.0.7 hostx *") []
      [⟨"hostx", "10.0.0.7", "aa:bb:cc:dd:ee:ff", "dynamic", "node1"⟩] rfl
      ⟨"hostx", "10.0.0.7", "aa:bb:cc:dd:ee:ff", "dynamic", "node1"⟩ (by decide)

/-- Claim C10 (code bug): lease-file parsing is not total.  On the line
`1 ab:cd 10.0.0.5 host1 0a` the normalized MAC `ab:cd` is shorter than 17
characters and the clientid `0a` is non-empty but also shorter than 17, so
`fields[4][len(fields[4])-17:]` slices with a negative lower bound and the Go
runtime panics; the model returns `none` and the handler outcome is `panic`. -/
theorem claim_C10_parse_panic :
    processLines "node1" [] (goSplitLines "1 ab:cd 10.0.0.5 host1 0a") = none
    ∧ networkLeasesGet envC10 = .panic
    ∧ goFields "1 ab:cd 10.0.0.5 host1 0a" = ["1", "ab:cd", "10.0.0.5", "host1", "0a"]
    ∧ goLen (joinColon (getMACSlice "ab:cd")) < 17
    ∧ "0a" ≠ "" ∧ goLen "0a" < 17 :=
  ⟨rfl, rfl, rfl, by decide, by decide, by decide⟩
